import Mathlib

/-!
Shallow embedding of `src/bout.py` (the bout bank-statement converter).

Pure Python functions become Lean functions.  Python exceptions
(IndexError from out-of-range indexing, TypeError from `reduce` over an
empty sequence) are made explicit: fallible operations return `Option`
or a dedicated result constructor.  Python floats appear only in
equality comparisons against `0.0`, so they are embedded as `Rat`.
String operations are embedded over `List Char` (via `String.data`) so
that every definition is executable and kernel-decidable; this
restricts digits to ASCII, which is the only divergence from Python's
regex-based `strptime` (whose character classes would also admit
non-ASCII decimal digits).
-/

namespace Bout

/-- Splits a character list at every occurrence of the separator `c`,
keeping empty segments; models Python `str.split(sep)` for a
one-character separator (and the segment structure of the regex used by
`datetime.strptime`, whose fields cannot contain the separator). -/
def splitOnChar (c : Char) : List Char → List (List Char)
  | [] => [[]]
  | ch :: rest =>
    let r := splitOnChar c rest
    if ch = c then [] :: r
    else
      match r with
      | [] => [[ch]]
      | g :: gs => (ch :: g) :: gs

/-- Numeric value of a nonempty all-ASCII-digit character list; `none`
otherwise.  Models the `int(...)` conversion applied by
`datetime.strptime` to a field matched by its digit patterns. -/
def digitsToNat (l : List Char) : Option Nat :=
  if l ≠ [] ∧ l.all Char.isDigit then
    some (l.foldl (fun n c => 10 * n + (c.toNat - 48)) 0)
  else none

/-- Gregorian leap-year rule used by Python `datetime`. -/
def isLeap (y : Nat) : Bool :=
  y % 4 = 0 ∧ (y % 100 ≠ 0 ∨ y % 400 = 0)

/-- Number of days in a month, as enforced by the `datetime(year, month,
day)` constructor. -/
def daysInMonth (m y : Nat) : Nat :=
  if m = 2 then (if isLeap y then 29 else 28)
  else if m = 4 ∨ m = 6 ∨ m = 9 ∨ m = 11 then 30
  else 31

/-- Models `_valid_date` of `src/bout.py`:
`datetime.strptime(date_value, "%d/%m/%Y")` succeeds exactly when the
string is `d "/" m "/" y` with `d` a 1-2 digit day in `1..31`, `m` a 1-2
digit month in `1..12`, `y` exactly four digits with value at least 1,
the whole input consumed, and the day no larger than the length of that
month (leap years included); on success `_valid_date` returns `True`,
on `ValueError` it returns `False`. -/
def valid_date (s : String) : Bool :=
  match splitOnChar '/' s.data with
  | [d, m, y] =>
    match digitsToNat d, digitsToNat m, digitsToNat y with
    | some dv, some mv, some yv =>
      decide (1 ≤ d.length ∧ d.length ≤ 2 ∧ 1 ≤ dv ∧ dv ≤ 31 ∧
              1 ≤ m.length ∧ m.length ≤ 2 ∧ 1 ≤ mv ∧ mv ≤ 12 ∧
              y.length = 4 ∧ 1 ≤ yv ∧ dv ≤ daysInMonth mv yv)
    | _, _, _ => false
  | _ => false

/-- The `Transaction` namedtuple of `src/bout.py`. -/
structure Transaction where
  date : String
  payee : String
  memo : String
  amount : String
deriving DecidableEq, Repr

/-- Result of a profile mapper applied to one clean row: a
`Transaction`, the `InvalidTransaction` sentinel, or an uncaught Python
exception (IndexError on a row too short for the profile's fixed column
indices). -/
inductive MapResult where
  | tx (t : Transaction)
  | invalid
  | error
deriving DecidableEq, Repr

/-- Amount of the produced transaction, when one was produced. -/
def MapResult.amountOf : MapResult → Option String
  | .tx t => some t.amount
  | _ => none

/-- Decidable embedding of Python `str.endswith`: `suff` is a suffix of
`s`. -/
def endsWithStr (s suff : String) : Bool :=
  decide (suff.data <:+ s.data)

/-- Embedding of Python `s.split(" ")[0]`: the longest prefix of `s`
with no space (splitting on every single space, the first fragment is
exactly the text before the first space, or all of `s` if it has
none). -/
def firstSpaceToken (s : String) : String :=
  String.mk (s.data.takeWhile (fun c => c ≠ ' '))

/-- Models `get_icici` of `src/bout.py`.  `data_row[2]` raises
IndexError when the row has fewer than 3 entries (`.error`); otherwise,
when the date at index 2 validates, the amount is the deposit column
`data_row[-2]` when that differs from `"0.0"` and otherwise `"-"`
prefixed to the withdrawal column `data_row[-3]`, the memo is the
space-join of the slice `data_row[4:columns-3]`, and the payee is
empty; an invalid date yields `InvalidTransaction` (`.invalid`). -/
def get_icici (data_row : List String) : MapResult :=
  let columns := data_row.length
  if columns < 3 then .error
  else if valid_date (data_row.getD 2 "") then
    let amt0 := "-" ++ data_row.getD (columns - 3) ""
    let amt := if data_row.getD (columns - 2) "" ≠ "0.0"
               then data_row.getD (columns - 2) "" else amt0
    .tx { date := data_row.getD 2 ""
          payee := ""
          memo := " ".intercalate ((data_row.drop 4).take (columns - 3 - 4))
          amount := amt }
  else .invalid

/-- Models `get_icicicc` of `src/bout.py`.  `data_row[0]` raises
IndexError on an empty row; when the date at index 0 validates,
`data_row[6]` raises IndexError on a row with fewer than 7 entries;
otherwise the amount is `"-"` prefixed to `data_row[6]`, except that
when that string ends with `" CR"` the amount is `data_row[6]` cut at
its first space (`split(" ")[0]`); the memo is `data_row[2]` and the
payee is empty; an invalid date yields `InvalidTransaction`. -/
def get_icicicc (data_row : List String) : MapResult :=
  if data_row.length < 1 then .error
  else if valid_date (data_row.getD 0 "") then
    if data_row.length < 7 then .error
    else
      let amt0 := "-" ++ data_row.getD 6 ""
      let amt := if endsWithStr amt0 " CR"
                 then firstSpaceToken (data_row.getD 6 "") else amt0
      .tx { date := data_row.getD 0 ""
            payee := ""
            memo := data_row.getD 2 ""
            amount := amt }
  else .invalid

/-- A positioned text fragment from PDF extraction (one cell of the
tabula JSON), as described in the docstring of `clean`. -/
structure RawCell where
  top : Rat
  left : Rat
  width : Rat
  height : Rat
  text : String
deriving DecidableEq, Repr

/-- One raw row object of the tabula JSON: extraction method, position,
and the nested `data` (physical lines of cells). -/
structure RawRow where
  extraction_method : String
  top : Rat
  left : Rat
  width : Rat
  height : Rat
  data : List (List RawCell)
deriving DecidableEq, Repr

/-- Models `_filter_zero_data` of `src/bout.py`: `None` when the row's
width is `0.0` and its inner data is empty, the row itself otherwise. -/
def filter_zero_data (row : RawRow) : Option RawRow :=
  if row.width = 0 ∧ row.data = [] then none else some row

/-- Models `_filter_zero_text` of `src/bout.py` (defined there but never
called): `None` when a cell has width `0.0` and empty text, the cell
itself otherwise. -/
def filter_zero_text (cell : RawCell) : Option RawCell :=
  if cell.width = 0 ∧ cell.text = "" then none else some cell

/-- Models the inner `merge_dict` of `clean`:
`["{}{}".format(d1[i], d2[i]) for i in range(len(d1))]`.  The
comprehension indexes `d2` at every `i < len(d1)`, so it raises
IndexError (`none`) exactly when `d2` is shorter than `d1`; otherwise
it concatenates index-wise over the length of `d1`, silently dropping
any extra trailing entries of `d2`. -/
def merge_dict (d1 d2 : List String) : Option (List String) :=
  if d1.length ≤ d2.length then
    some ((List.range d1.length).map (fun i => d1.getD i "" ++ d2.getD i ""))
  else none

/-- Left fold of `merge_dict` over the remaining lines, propagating an
IndexError; models the iteration performed by `functools.reduce`. -/
def reduceMerge : List String → List (List String) → Option (List String)
  | acc, [] => some acc
  | acc, l :: ls =>
    match merge_dict acc l with
    | none => none
    | some acc2 => reduceMerge acc2 ls

/-- Models `functools.reduce(merge_dict, lines)` with no initializer:
TypeError (`none`) on an empty list, else the fold seeded with the
first line. -/
def mergeAll : List (List String) → Option (List String)
  | [] => none
  | x :: xs => reduceMerge x xs

/-- Models `clean` of `src/bout.py`.  A row rejected by
`_filter_zero_data` yields the empty list.  Otherwise the cell texts
are taken line by line; `"lattice"` returns the lines as they are;
`"stream"` reduces them with `merge_dict` and keeps the non-empty
merged values (`[v for v in merged_line if v]`) as a single row.
`none` models a raised exception (jagged or empty `data` in stream
mode) or the implicit Python `None` on any other extraction method. -/
def clean (row : RawRow) : Option (List (List String)) :=
  match filter_zero_data row with
  | none => some []
  | some r =>
    let lines := r.data.map (fun l => l.map RawCell.text)
    if r.extraction_method = "lattice" then some lines
    else if r.extraction_method = "stream" then
      match mergeAll lines with
      | none => none
      | some merged => some [merged.filter (fun v => v ≠ "")]
    else none

/-- Interpreter for the positional-placeholder format strings used by
`src/bout.py`: a single-digit index between the braces is replaced by
the corresponding argument, every other character is copied. -/
def pyFormatAux (args : List String) : List Char → List Char
  | c1 :: c2 :: c3 :: rest =>
    if c1 = Char.ofNat 123 ∧ c2.isDigit ∧ c3 = Char.ofNat 125 then
      (args.getD (c2.toNat - 48) "").data ++ pyFormatAux args rest
    else c1 :: pyFormatAux args (c2 :: c3 :: rest)
  | l => l

/-- Models Python `template.format(args...)` for the templates of
`src/bout.py`. -/
def pyFormat (template : String) (args : List String) : String :=
  String.mk (pyFormatAux args template.data)

/-- Models `to_qif` of `src/bout.py`:
`"D{0}\nM{1}\nT{2}\n^\n\n".format(date, memo, amount)`. -/
def to_qif (transaction : Transaction) : String :=
  pyFormat "D{0}\nM{1}\nT{2}\n^\n\n"
    [transaction.date, transaction.memo, transaction.amount]

/-- The string echoed by `qif_header` of `src/bout.py`. -/
def qif_header : String := "!Account\nNMyAccount\nTMyBank\n^\n!Type:Bank"

/-- Models the emission loop of `start` in `src/bout.py`, as the list
of strings passed to `click.echo`, starting from the given
`print_header` flag: invalid transactions are skipped, the header is
echoed once before the first valid transaction, each valid transaction
is echoed in qif form, and a mapper exception aborts the run (the
output echoed so far stands). -/
def emitLoop (create : List String → MapResult) :
    Bool → List (List String) → List String
  | _, [] => []
  | ph, r :: rest =>
    match create r with
    | .error => []
    | .invalid => emitLoop create ph rest
    | .tx t =>
      (if ph then [] else [qif_header]) ++ to_qif t :: emitLoop create true rest

/-- The transactions the loop of `start` reaches: rows mapped to
`InvalidTransaction` are dropped and a mapper exception cuts the run
short. -/
def collectTx (create : List String → MapResult) :
    List (List String) → List Transaction
  | [] => []
  | r :: rest =>
    match create r with
    | .error => []
    | .invalid => collectTx create rest
    | .tx t => t :: collectTx create rest

/-- Full stdout of one document run over the given clean rows:
`click.echo` appends a newline to each echoed string. -/
def run_output (create : List String → MapResult)
    (rows : List (List String)) : String :=
  String.join ((emitLoop create false rows).map (fun s => s ++ "\n"))

/-- Modelled from the spec: the CSV Row Source/Cleaner is absent from
`src/` (src/bout.py only reads PDFs through tabula).  Per spec section
4.1, for CSV input the Row Cleaner locates the known header line,
consumes the following lines until the next blank line, and returns
them parsed into comma-separated field sequences. -/
def csvClean (headerLine : String) (docLines : List String) :
    List (List String) :=
  ((((docLines.dropWhile (fun l => l ≠ headerLine)).drop 1).takeWhile
      (fun l => l ≠ "")).map
    (fun l => (splitOnChar ',' l.data).map String.mk))

/-- Index-wise column concatenation: the text at column `i` of every
line, concatenated in line order (missing entries contribute the empty
string). -/
def colConcat : List (List String) → Nat → String
  | [], _ => ""
  | l :: ls, i => l.getD i "" ++ colConcat ls i

/-- Cell constructor used by the concrete test rows (positions are
irrelevant to `clean`; only `width` and `text` could matter). -/
def mkCell (w : Rat) (t : String) : RawCell :=
  { top := 3, left := 2, width := w, height := 6, text := t }

/-- Stream row with two physical lines, the second line's first cell of
zero width and empty text (the example of the spec). -/
def c1StreamRow : RawRow :=
  { extraction_method := "stream", top := 0, left := 0, width := 939,
    height := 441,
    data := [[mkCell 6 "c1", mkCell 6 "c2"], [mkCell 0 "", mkCell 6 "c4"]] }

/-- Stream row whose second physical line is shorter than its first. -/
def c1JaggedRow : RawRow :=
  { extraction_method := "stream", top := 0, left := 0, width := 939,
    height := 441,
    data := [[mkCell 6 "a", mkCell 6 "b"], [mkCell 6 "c"]] }

/-- Icici row with both the withdrawal and the deposit column
non-zero. -/
def c2BothNonzeroRow : List String :=
  ["0", "x", "10/07/2017", "y", "Desc", "5.0", "7.0", "99.0"]

/-- Icici row of the test suite: withdrawal 20000.0, deposit 0.0. -/
def c2DebitRow : List String :=
  ["5", "08/07/2017", "10/07/2017", "-", "SomeDescription", "20000.0",
   "0.0", "27296.69"]

/-- Icicicc row whose amount field has an inner space before the
trailing marker. -/
def c3SpacedRow : List String :=
  ["14/07/2017", "x", "Memo", "", "", "", "1 2 CR"]

/-- Icicicc row of the test suite with the credit marker. -/
def c3CrRow : List String :=
  ["14/07/2017", "74143617199000258114409", "SomeDescription", "414",
   "", "", "20,724.06 CR"]

/-- Malformed row: zero width and no inner data. -/
def c7EmptyRow : RawRow :=
  { extraction_method := "stream", top := 0, left := 0, width := 0,
    height := 4, data := [] }

/-- Lattice row with two physical lines (the example of the spec). -/
def c8LatticeRow : RawRow :=
  { extraction_method := "lattice", top := 0, left := 0, width := 939,
    height := 441,
    data := [[mkCell 6 "c1", mkCell 6 "c2"], [mkCell 0 "", mkCell 6 "c4"]] }

/-- Stream row whose second physical line is shorter than its first. -/
def c10ShortRow : RawRow :=
  { extraction_method := "stream", top := 0, left := 0, width := 9,
    height := 4,
    data := [[mkCell 6 "p", mkCell 6 "q"], [mkCell 6 "r"]] }

/-- Stream row whose second physical line is longer than its first. -/
def c10LongRow : RawRow :=
  { extraction_method := "stream", top := 0, left := 0, width := 9,
    height := 4,
    data := [[mkCell 6 "u", mkCell 6 "v"],
             [mkCell 6 "w", mkCell 6 "x", mkCell 6 "y"]] }

/-- The icici CSV header line named by the spec. -/
def iciciCsvHeader : String :=
  "DATE,MODE,PARTICULARS,DEPOSITS,WITHDRAWALS,BALANCE"

/-- The end-to-end CSV document of the spec: header line plus one data
line. -/
def c6DocLines : List String :=
  [iciciCsvHeader, "10/07/2017,,SomeDescription,0.0,20000.0,27296.69"]

example : valid_date "10/07/2017" = true := by decide
example : valid_date "SomeDescription" = false := by decide
example : valid_date "31/02/2017" = false := by decide
example : valid_date "29/02/2016" = true := by decide
example : valid_date "29/02/2017" = false := by decide
example : valid_date "1/1/0000" = false := by decide
example : valid_date "10/07/17" = false := by decide
example :
    get_icici ["5", "08/07/2017", "10/07/2017", "-", "SomeDescription",
               "20000.0", "0.0", "27296.69"] =
      .tx { date := "10/07/2017", payee := "", memo := "SomeDescription",
            amount := "-20000.0" } := by decide
example :
    get_icicicc ["14/07/2017", "74143617199000258114409", "SomeDescription",
                 "414", "", "", "20,724.06 CR"] =
      .tx { date := "14/07/2017", payee := "", memo := "SomeDescription",
            amount := "20,724.06" } := by decide

example :
    clean { extraction_method := "stream", top := 0, left := 0, width := 939,
            height := 441,
            data := [[mkCell 6 "c1", mkCell 6 "c2"],
                     [mkCell 0 "", mkCell 6 "c4"]] } =
      some [["c1", "c2c4"]] := by decide

example :
    clean { extraction_method := "lattice", top := 0, left := 0, width := 939,
            height := 441,
            data := [[mkCell 6 "c1", mkCell 6 "c2"],
                     [mkCell 0 "", mkCell 6 "c4"]] } =
      some [["c1", "c2"], ["", "c4"]] := by decide

example :
    clean { extraction_method := "stream", top := 0, left := 0, width := 939,
            height := 441,
            data := [[mkCell 6 "a", mkCell 6 "b"], [mkCell 6 "c"]] } =
      none := by decide

example :
    to_qif { date := "10/07/2017", payee := "", memo := "SomeDescription",
             amount := "-20000.0" } =
      "D10/07/2017\nMSomeDescription\nT-20000.0\n^\n\n" := by decide

example :
    emitLoop get_icici false
      [["5", "08/07/2017", "10/07/2017", "-", "SomeDescription", "20000.0",
        "0.0", "27296.69"]] =
      [qif_header, "D10/07/2017\nMSomeDescription\nT-20000.0\n^\n\n"] := by
  decide

example :
    csvClean "DATE,MODE,PARTICULARS,DEPOSITS,WITHDRAWALS,BALANCE"
      ["DATE,MODE,PARTICULARS,DEPOSITS,WITHDRAWALS,BALANCE",
       "10/07/2017,,SomeDescription,0.0,20000.0,27296.69"] =
      [["10/07/2017", "", "SomeDescription", "0.0", "20000.0", "27296.69"]] := by
  decide

example :
    run_output get_icici
      (csvClean "DATE,MODE,PARTICULARS,DEPOSITS,WITHDRAWALS,BALANCE"
        ["DATE,MODE,PARTICULARS,DEPOSITS,WITHDRAWALS,BALANCE",
         "10/07/2017,,SomeDescription,0.0,20000.0,27296.69"]) = "" := by decide

/-! Helper lemmas about list indexing and the stream merge fold. -/

theorem getD_map_range (f : Nat → String) {n i : Nat} (h : i < n) (d : String) :
    ((List.range n).map f).getD i d = f i := by
  rw [List.getD_eq_getElem?_getD, List.getElem?_map, List.getElem?_range h]
  rfl

theorem selfMapRange (l : List String) :
    (List.range l.length).map (fun i => l.getD i "") = l := by
  apply List.ext_getElem?
  intro i
  rw [List.getElem?_map]
  by_cases h : i < l.length
  · rw [List.getElem?_range h, List.getElem?_eq_getElem h]
    simp [List.getD_eq_getElem?_getD, List.getElem?_eq_getElem h]
  · rw [List.getElem?_eq_none (by simpa using Nat.le_of_not_lt h),
        List.getElem?_eq_none (Nat.le_of_not_lt h)]
    rfl

theorem getD_take (l : List String) {n i : Nat} (h : i < n) (d : String) :
    (l.take n).getD i d = l.getD i d := by
  rw [List.getD_eq_getElem?_getD, List.getD_eq_getElem?_getD,
      List.getElem?_take, if_pos h]

theorem merge_dict_of_le {d1 d2 : List String} (h : d1.length ≤ d2.length) :
    merge_dict d1 d2 =
      some ((List.range d1.length).map (fun i => d1.getD i "" ++ d2.getD i "")) := by
  unfold merge_dict
  rw [if_pos h]

theorem merge_dict_some_le {d1 d2 out : List String}
    (h : merge_dict d1 d2 = some out) : d1.length ≤ d2.length := by
  unfold merge_dict at h
  by_cases hle : d1.length ≤ d2.length
  · exact hle
  · rw [if_neg hle] at h
    cases h

theorem merge_dict_some_length {d1 d2 out : List String}
    (h : merge_dict d1 d2 = some out) : out.length = d1.length := by
  have hle := merge_dict_some_le h
  rw [merge_dict_of_le hle] at h
  injection h with h2
  rw [← h2]
  simp

theorem merge_dict_take (acc l : List String) :
    merge_dict acc (l.take acc.length) = merge_dict acc l := by
  rcases le_or_lt acc.length l.length with hle | hlt
  · have hle2 : acc.length ≤ (l.take acc.length).length := by
      rw [List.length_take]
      exact le_min (le_refl _) hle
    rw [merge_dict_of_le hle, merge_dict_of_le hle2]
    congr 1
    apply List.map_congr_left
    intro i hi
    rw [getD_take l (List.mem_range.mp hi)]
  · rw [List.take_of_length_le (Nat.le_of_lt hlt)]

theorem reduceMerge_full (ls : List (List String)) :
    ∀ acc : List String, (∀ l ∈ ls, acc.length ≤ l.length) →
      reduceMerge acc ls =
        some ((List.range acc.length).map
          (fun i => acc.getD i "" ++ colConcat ls i)) := by
  induction ls with
  | nil =>
    intro acc _
    show some acc = _
    rw [show (fun i => acc.getD i "" ++ colConcat [] i) =
          (fun i => acc.getD i "") by
        funext i
        show acc.getD i "" ++ "" = acc.getD i ""
        exact String.append_empty _]
    rw [selfMapRange]
  | cons l ls ih =>
    intro acc h
    have hle : acc.length ≤ l.length := h l (by simp)
    have hm := merge_dict_of_le hle
    rw [show reduceMerge acc (l :: ls) =
          (match merge_dict acc l with
           | none => none
           | some acc2 => reduceMerge acc2 ls) from rfl, hm]
    show reduceMerge ((List.range acc.length).map
        (fun i => acc.getD i "" ++ l.getD i "")) ls = _
    have hlen : ((List.range acc.length).map
        (fun i => acc.getD i "" ++ l.getD i "")).length = acc.length := by simp
    rw [ih _ (by
      intro l2 hl2
      rw [hlen]
      exact h l2 (List.mem_cons_of_mem _ hl2))]
    rw [hlen]
    congr 1
    apply List.map_congr_left
    intro i hi
    have hi2 := List.mem_range.mp hi
    rw [getD_map_range _ hi2]
    show acc.getD i "" ++ l.getD i "" ++ colConcat ls i = _
    rw [String.append_assoc]
    rfl

theorem reduceMerge_isSome_le (ls : List (List String)) :
    ∀ acc : List String, (reduceMerge acc ls).isSome = true →
      ∀ l ∈ ls, acc.length ≤ l.length := by
  induction ls with
  | nil =>
    intro acc _ l hl
    cases hl
  | cons l ls ih =>
    intro acc h l2 hl2
    cases hm : merge_dict acc l with
    | none =>
      rw [show reduceMerge acc (l :: ls) =
            (match merge_dict acc l with
             | none => none
             | some acc2 => reduceMerge acc2 ls) from rfl, hm] at h
      cases h
    | some acc2 =>
      rw [show reduceMerge acc (l :: ls) =
            (match merge_dict acc l with
             | none => none
             | some acc3 => reduceMerge acc3 ls) from rfl, hm] at h
      rcases List.mem_cons.mp hl2 with rfl | hmem
      · exact merge_dict_some_le hm
      · have h2 := ih acc2 h l2 hmem
        rwa [merge_dict_some_length hm] at h2

theorem reduceMerge_take (ls : List (List String)) :
    ∀ acc : List String,
      reduceMerge acc (ls.map (fun l => l.take acc.length)) =
        reduceMerge acc ls := by
  induction ls with
  | nil => intro acc; rfl
  | cons l ls ih =>
    intro acc
    rw [List.map_cons]
    show (match merge_dict acc (l.take acc.length) with
          | none => none
          | some acc2 => reduceMerge acc2 (ls.map (fun l => l.take acc.length))) =
        (match merge_dict acc l with
         | none => none
         | some acc2 => reduceMerge acc2 ls)
    rw [merge_dict_take]
    cases hm : merge_dict acc l with
    | none => rfl
    | some acc2 =>
      show reduceMerge acc2 (ls.map (fun l => l.take acc.length)) =
        reduceMerge acc2 ls
      rw [← merge_dict_some_length hm]
      exact ih acc2

theorem clean_stream_eq (r : RawRow) (hm : r.extraction_method = "stream")
    (hne : r.data ≠ []) :
    clean r =
      match mergeAll (r.data.map (fun l => l.map RawCell.text)) with
      | none => none
      | some merged => some [merged.filter (fun v => v ≠ "")] := by
  unfold clean filter_zero_data
  rw [if_neg (fun hc => hne hc.2)]
  show (if r.extraction_method = "lattice"
        then some (r.data.map (fun l => l.map RawCell.text))
        else if r.extraction_method = "stream" then
          match mergeAll (r.data.map (fun l => l.map RawCell.text)) with
          | none => none
          | some merged => some [merged.filter (fun v => v ≠ "")]
        else none) = _
  rw [hm]
  rw [if_neg (by decide : ¬ ("stream" : String) = "lattice")]
  rw [if_pos rfl]

/-- Claim C1 (amended): for a stream-mode RawRow passing the
malformed-row filter that has at least one physical line and whose
later lines are each at least as long as the first, `clean` yields
exactly one CleanRow, whose columns are the index-wise concatenations
of the cell texts across all physical lines in line order (over the
column indices of the first line), keeping exactly the non-empty
concatenated values.  The unamended claim fails on jagged rows, see the
counterexample. -/
theorem clean_stream_merges_lines (r : RawRow) (l0 : List RawCell)
    (rest : List (List RawCell))
    (hm : r.extraction_method = "stream")
    (hd : r.data = l0 :: rest)
    (hlen : ∀ l ∈ rest, l0.length ≤ l.length) :
    clean r = some [((List.range l0.length).map
        (fun i => colConcat (r.data.map (fun l => l.map RawCell.text)) i)).filter
      (fun v => v ≠ "")] := by
  rw [clean_stream_eq r hm (by rw [hd]; exact List.cons_ne_nil _ _)]
  rw [hd]
  rw [List.map_cons]
  show (match reduceMerge (l0.map RawCell.text)
          (rest.map (fun l => l.map RawCell.text)) with
        | none => none
        | some merged => some [merged.filter (fun v => v ≠ "")]) = _
  rw [reduceMerge_full _ _ (by
    intro l2 hl2
    rw [List.length_map]
    obtain ⟨l3, hl3, rfl⟩ := List.mem_map.mp hl2
    rw [List.length_map]
    exact hlen l3 hl3)]
  show some [(List.map _ (List.range (l0.map RawCell.text).length)).filter _] = _
  rw [List.length_map]
  rfl

/-- Claim C1, counterexample to the unamended statement: this stream
row passes the malformed-row filter, yet `clean` yields no CleanRow at
all — its second physical line is shorter than its first, so the merge
comprehension raises IndexError. -/
theorem c1_counterexample :
    filter_zero_data c1JaggedRow = some c1JaggedRow ∧
      clean c1JaggedRow = none := by decide

/-- Claim C1, witness: the spec's own example row (two lines
`["c1","c2"]` and `["","c4"]`, the second line's first cell of zero
width and empty text) yields exactly the one CleanRow
`["c1","c2c4"]`. -/
theorem c1_witness : clean c1StreamRow = some [["c1", "c2c4"]] := by
  have h := clean_stream_merges_lines c1StreamRow
    [mkCell 6 "c1", mkCell 6 "c2"] [[mkCell 0 "", mkCell 6 "c4"]]
    rfl rfl (by decide)
  rw [h]
  decide

/-- Claim C7: a RawRow whose declared width is `0.0` and whose inner
data is empty is discarded entirely — `clean` returns the empty
sequence of CleanRows. -/
theorem clean_drops_malformed_row (r : RawRow) (hw : r.width = 0)
    (hd : r.data = []) : clean r = some [] := by
  unfold clean filter_zero_data
  rw [if_pos ⟨hw, hd⟩]

/-- Claim C7, witness: the malformed row of the test suite (stream,
width `0.0`, no data) yields the empty sequence. -/
theorem c7_witness : clean c7EmptyRow = some [] :=
  clean_drops_malformed_row c7EmptyRow rfl rfl

/-- Claim C8: for a lattice-mode RawRow passing the malformed-row
filter, `clean` returns one CleanRow per physical line, holding that
line's cell texts unchanged and in column order, with no cross-line
merge. -/
theorem clean_lattice_per_line (r : RawRow)
    (hm : r.extraction_method = "lattice")
    (hp : ¬ (r.width = 0 ∧ r.data = [])) :
    clean r = some (r.data.map (fun l => l.map RawCell.text)) := by
  unfold clean filter_zero_data
  rw [if_neg hp]
  show (if r.extraction_method = "lattice"
        then some (r.data.map (fun l => l.map RawCell.text))
        else if r.extraction_method = "stream" then
          match mergeAll (r.data.map (fun l => l.map RawCell.text)) with
          | none => none
          | some merged => some [merged.filter (fun v => v ≠ "")]
        else none) = _
  rw [hm]
  rw [if_pos rfl]

/-- Claim C8, witness: the spec's example lattice row with lines
`["c1","c2"]` and `["","c4"]` yields exactly those two CleanRows. -/
theorem c8_witness : clean c8LatticeRow = some [["c1", "c2"], ["", "c4"]] := by
  have h := clean_lattice_per_line c8LatticeRow rfl (by decide)
  rw [h]
  decide

/-- Claim C10: stream-mode cleaning of a row that passes the
malformed-row filter is partial.  For any stream row with first line
`l0`: if `clean` succeeds then every later physical line has at least
as many cells as `l0` (the merge reads index `i` of each later line
for every index of the accumulated first line); extra trailing cells
of longer later lines are silently dropped (truncating every later
line to the first line's length leaves the result unchanged); and the
error branch is reachable — on the concrete row `c10ShortRow`, whose
second line is shorter, `clean` produces no value (IndexError). -/
theorem clean_stream_requires_full_lines :
    (∀ (r : RawRow) (l0 : List RawCell) (rest : List (List RawCell)),
      r.extraction_method = "stream" → r.data = l0 :: rest →
      ((clean r).isSome = true → ∀ l ∈ rest, l0.length ≤ l.length) ∧
        clean r =
          clean { r with data := l0 :: rest.map (fun l => l.take l0.length) }) ∧
      clean c10ShortRow = none := by
  constructor
  · intro r l0 rest hm hd
    have hstream := clean_stream_eq r hm (by rw [hd]; exact List.cons_ne_nil _ _)
    constructor
    · intro hsome l hl
      rw [hstream, hd, List.map_cons] at hsome
      have hred : (reduceMerge (l0.map RawCell.text)
          (rest.map (fun l => l.map RawCell.text))).isSome = true := by
        cases hr : reduceMerge (l0.map RawCell.text)
            (rest.map (fun l => l.map RawCell.text)) with
        | none =>
          rw [show mergeAll ((l0.map RawCell.text) ::
              rest.map (fun l => l.map RawCell.text)) =
              reduceMerge (l0.map RawCell.text)
                (rest.map (fun l => l.map RawCell.text)) from rfl, hr] at hsome
          cases hsome
        | some m => rfl
      have h2 := reduceMerge_isSome_le _ _ hred (l.map RawCell.text)
        (List.mem_map_of_mem _ hl)
      simpa using h2
    · have hne2 : ({ r with data := l0 :: rest.map (fun l => l.take l0.length) }
          : RawRow).data ≠ [] := List.cons_ne_nil _ _
      have hstream2 := clean_stream_eq
        { r with data := l0 :: rest.map (fun l => l.take l0.length) } hm hne2
      rw [hstream, hstream2, hd]
      rw [List.map_cons, List.map_cons]
      rw [show (rest.map (fun l => l.take l0.length)).map
            (fun l => l.map RawCell.text) =
          (rest.map (fun l => l.map RawCell.text)).map
            (fun l => l.take (l0.map RawCell.text).length) by
        rw [List.map_map, List.map_map]
        apply List.map_congr_left
        intro l2 _
        show (l2.take l0.length).map RawCell.text =
          (l2.map RawCell.text).take (l0.map RawCell.text).length
        rw [List.map_take, List.length_map]]
      rw [show mergeAll ((l0.map RawCell.text) ::
            (rest.map (fun l => l.map RawCell.text)).map
              (fun l => l.take (l0.map RawCell.text).length)) =
          reduceMerge (l0.map RawCell.text)
            ((rest.map (fun l => l.map RawCell.text)).map
              (fun l => l.take (l0.map RawCell.text).length)) from rfl]
      rw [reduceMerge_take]
      rfl
  · decide

/-- Claim C10, witness: on a stream row whose second line is one cell
longer than its first, dropping the extra trailing cell does not change
the result of `clean`. -/
theorem c10_witness :
    clean c10LongRow =
      clean { c10LongRow with
              data := [[mkCell 6 "u", mkCell 6 "v"],
                       [mkCell 6 "w", mkCell 6 "x"]] } := by
  have h := (clean_stream_requires_full_lines.1 c10LongRow
    [mkCell 6 "u", mkCell 6 "v"]
    [[mkCell 6 "w", mkCell 6 "x", mkCell 6 "y"]] rfl rfl).2
  exact h

theorem suffix_cr_cons (l : List Char) :
    ([' ', 'C', 'R'] <:+ '-' :: l) ↔ ([' ', 'C', 'R'] <:+ l) := by
  rw [List.suffix_cons_iff]
  constructor
  · rintro (h | h)
    · injection h with h1 h2
      exact absurd h1 (by decide)
    · exact h
  · exact Or.inr

theorem endsWithStr_dash_cr (x : String) :
    endsWithStr ("-" ++ x) " CR" = endsWithStr x " CR" := by
  obtain ⟨l⟩ := x
  show decide ([' ', 'C', 'R'] <:+ '-' :: l) = decide ([' ', 'C', 'R'] <:+ l)
  exact decide_eq_decide.mpr (suffix_cr_cons l)

/-- Claim C2 (amended): for an icici clean row (at least three columns)
with a valid date at index 2, the amount is the deposit column
`data_row[-2]` as-is whenever that string differs from `"0.0"`, and
otherwise `"-"` prefixed to the withdrawal column `data_row[-3]` — the
code branches on the deposit (credit) column, not on the withdrawal
(debit) column as the unamended claim states; both of the spec's
numeric examples satisfy the amended rule. -/
theorem get_icici_amount_rule (row : List String)
    (h3 : 2 < row.length)
    (hdate : valid_date (row.getD 2 "") = true) :
    ∃ t, get_icici row = MapResult.tx t ∧
      t.amount = if row.getD (row.length - 2) "" ≠ "0.0"
                 then row.getD (row.length - 2) ""
                 else "-" ++ row.getD (row.length - 3) "" := by
  unfold get_icici
  rw [if_neg (by omega : ¬ row.length < 3)]
  rw [if_pos hdate]
  exact ⟨_, rfl, rfl⟩

/-- Claim C2, counterexample to the unamended statement: on a valid
row whose withdrawal (debit) column is `"5.0"` and whose deposit
(credit) column is `"7.0"`, the mapped amount is `"7.0"`, not the
negated debit `"-5.0"` demanded by the claim. -/
theorem c2_counterexample :
    (get_icici c2BothNonzeroRow).amountOf = some "7.0" ∧
      (get_icici c2BothNonzeroRow).amountOf ≠ some "-5.0" := by decide

/-- Claim C2, witness: the spec's example — debit `"20000.0"`, credit
`"0.0"` — maps to amount `"-20000.0"`. -/
theorem c2_witness :
    ∃ t, get_icici c2DebitRow = MapResult.tx t ∧ t.amount = "-20000.0" := by
  obtain ⟨t, h1, h2⟩ := get_icici_amount_rule c2DebitRow (by decide) (by decide)
  refine ⟨t, h1, ?_⟩
  rw [h2]
  decide

/-- Claim C3 (amended): for an icicicc clean row (at least seven
columns) with a valid date at index 0, an amount field ending in the
marker `" CR"` yields `split(" ")[0]` — the part of the field before
its first space, which equals the field with the marker stripped
whenever the field contains no other space (so `"20,724.06 CR"` gives
`"20,724.06"`) — and a field without the marker yields the field
prefixed with `"-"`.  The unamended "marker stripped" reading fails on
fields with an inner space, see the counterexample. -/
theorem get_icicicc_amount_rule (row : List String)
    (h7 : 6 < row.length)
    (hdate : valid_date (row.getD 0 "") = true) :
    ∃ t, get_icicicc row = MapResult.tx t ∧
      t.amount = if endsWithStr (row.getD 6 "") " CR"
                 then firstSpaceToken (row.getD 6 "")
                 else "-" ++ row.getD 6 "" := by
  unfold get_icicicc
  rw [if_neg (by omega : ¬ row.length < 1)]
  rw [if_pos hdate]
  rw [if_neg (by omega : ¬ row.length < 7)]
  refine ⟨_, rfl, ?_⟩
  show (if endsWithStr ("-" ++ row.getD 6 "") " CR"
        then firstSpaceToken (row.getD 6 "")
        else "-" ++ row.getD 6 "") = _
  rw [endsWithStr_dash_cr]

/-- Claim C3, counterexample to the unamended statement: the amount
field `"1 2 CR"` carries the trailing marker, but the output amount is
`"1"` (the part before the first space), not `"1 2"` (the field with
the marker stripped). -/
theorem c3_counterexample :
    (get_icicicc c3SpacedRow).amountOf = some "1" ∧
      (get_icicicc c3SpacedRow).amountOf ≠ some "1 2" := by decide

/-- Claim C3, witness: the spec's example — amount field
`"20,724.06 CR"` — yields the positive amount `"20,724.06"` with the
marker stripped. -/
theorem c3_witness :
    ∃ t, get_icicicc c3CrRow = MapResult.tx t ∧ t.amount = "20,724.06" := by
  obtain ⟨t, h1, h2⟩ := get_icicicc_amount_rule c3CrRow (by decide) (by decide)
  refine ⟨t, h1, ?_⟩
  rw [h2]
  decide

/-- Claim C4 (amended): both profile mappers validate their date field
with the same `DD/MM/YYYY` format (`_valid_date`), and — provided the
row reaches the profile's fixed columns — return `InvalidTransaction`
exactly when the date fails to parse: for icici (date at index 2, rows
of at least 3 columns) the result is `InvalidTransaction` iff the date
is invalid, and a `Transaction` otherwise; for icicicc (date at index
0, any non-empty row) the result is `InvalidTransaction` iff the date
is invalid, and a `Transaction` when the date is valid and the row has
at least 7 columns.  The unamended claim fails on rows too short for
the profile's column indices, which raise IndexError instead of
returning `InvalidTransaction`, see the counterexample. -/
theorem mapper_invalid_iff_bad_date (row : List String) :
    (2 < row.length →
      (get_icici row = MapResult.invalid ↔ valid_date (row.getD 2 "") = false)) ∧
    (2 < row.length → valid_date (row.getD 2 "") = true →
      ∃ t, get_icici row = MapResult.tx t) ∧
    (0 < row.length →
      (get_icicicc row = MapResult.invalid ↔
        valid_date (row.getD 0 "") = false)) ∧
    (6 < row.length → valid_date (row.getD 0 "") = true →
      ∃ t, get_icicicc row = MapResult.tx t) := by
  refine ⟨?_, ?_, ?_, ?_⟩
  · intro h3
    unfold get_icici
    rw [if_neg (by omega : ¬ row.length < 3)]
    cases hv : valid_date (row.getD 2 "") with
    | false => simp [hv]
    | true => simp [hv]
  · intro h3 hv
    unfold get_icici
    rw [if_neg (by omega : ¬ row.length < 3), if_pos hv]
    exact ⟨_, rfl⟩
  · intro h1
    unfold get_icicicc
    rw [if_neg (by omega : ¬ row.length < 1)]
    cases hv : valid_date (row.getD 0 "") with
    | false => simp [hv]
    | true =>
      rw [if_pos (rfl : (true : Bool) = true)]
      by_cases h7 : row.length < 7
      · rw [if_pos h7]
        simp
      · rw [if_neg h7]
        simp
  · intro h7 hv
    unfold get_icicicc
    rw [if_neg (by omega : ¬ row.length < 1), if_pos hv,
        if_neg (by omega : ¬ row.length < 7)]
    exact ⟨_, rfl⟩

/-- Claim C4, counterexample to the unamended statement: rows too
short for the profile's column indices make the mapper raise IndexError
— it returns neither a Transaction nor InvalidTransaction.  For icici
an empty clean row fails at `data_row[2]`; for icicicc a one-column row
with a perfectly valid date fails at `data_row[6]`. -/
theorem c4_counterexample :
    get_icici [] = MapResult.error ∧
      get_icicicc ["14/07/2017"] = MapResult.error := by decide

/-- Claim C4, witness: a three-column row whose date field does not
parse maps to `InvalidTransaction` under the icici profile. -/
theorem c4_witness : get_icici ["a", "b", "c"] = MapResult.invalid :=
  ((mapper_invalid_iff_bad_date ["a", "b", "c"]).1 (by decide)).mpr (by decide)

theorem emitLoop_true (create : List String → MapResult)
    (rows : List (List String)) :
    emitLoop create true rows = (collectTx create rows).map to_qif := by
  induction rows with
  | nil => rfl
  | cons r rest ih =>
    cases hc : create r with
    | error => simp [emitLoop, collectTx, hc]
    | invalid => simpa [emitLoop, collectTx, hc] using ih
    | tx t => simp [emitLoop, collectTx, hc, ih]

/-- Claim C5: in a single document run over any list of clean rows and
any profile mapper, the emitted strings are exactly empty when no row
yields a valid transaction, and otherwise the header block appears
exactly once, as the very first emission, before the first valid
transaction's block, followed by exactly the valid transactions' qif
blocks in order. -/
theorem header_emitted_once_lazily (create : List String → MapResult)
    (rows : List (List String)) :
    emitLoop create false rows =
      if collectTx create rows = [] then []
      else qif_header :: (collectTx create rows).map to_qif := by
  induction rows with
  | nil => rfl
  | cons r rest ih =>
    cases hc : create r with
    | error => simp [emitLoop, collectTx, hc]
    | invalid => simpa [emitLoop, collectTx, hc] using ih
    | tx t => simp [emitLoop, collectTx, hc, emitLoop_true]

/-- Claim C9: for every Transaction, `to_qif` returns exactly the
string `D<date>\nM<memo>\nT<amount>\n^\n\n` — the date, memo and
amount each on their own line behind a fixed one-character tag, then
the separator line and a blank line — with the memo (and every other
field) inserted verbatim, no character escaped. -/
theorem to_qif_block (t : Transaction) :
    to_qif t =
      "D" ++ t.date ++ "\nM" ++ t.memo ++ "\nT" ++ t.amount ++ "\n^\n\n" := by
  obtain ⟨d, p, m, a⟩ := t
  obtain ⟨dl⟩ := d
  obtain ⟨ml⟩ := m
  obtain ⟨al⟩ := a
  apply String.ext
  show pyFormatAux [String.mk dl, String.mk ml, String.mk al]
      ("D{0}\nM{1}\nT{2}\n^\n\n".data) = _
  rw [show pyFormatAux [String.mk dl, String.mk ml, String.mk al]
        ("D{0}\nM{1}\nT{2}\n^\n\n".data) =
      'D' :: (dl ++ '\n' :: 'M' ::
        (ml ++ '\n' :: 'T' :: (al ++ ['\n', '^', '\n', '\n']))) from rfl]
  show _ = "D".data ++ dl ++ "\nM".data ++ ml ++ "\nT".data ++ al ++
      "\n^\n\n".data
  simp

/-- Claim C6, counterexample: running the spec's end-to-end CSV input
(header `DATE,MODE,PARTICULARS,DEPOSITS,WITHDRAWALS,BALANCE` plus the
single data line `10/07/2017,,SomeDescription,0.0,20000.0,27296.69`)
through the spec-modelled CSV Row Cleaner and the icici mapper of
`src/bout.py` emits nothing at all: the output is the empty string, so
it contains none of `D10/07/2017`, `MSomeDescription`, `T-20000.0`. -/
theorem c6_counterexample :
    emitLoop get_icici false (csvClean iciciCsvHeader c6DocLines) = [] ∧
      run_output get_icici (csvClean iciciCsvHeader c6DocLines) = "" := by
  decide

/-- Claim C6 (amended): on the spec's CSV input the run produces no
output, because the CSV Row Cleaner (modelled from the spec) yields the
single six-column row whose index 2 holds `SomeDescription`, the icici
mapper of `src/bout.py` validates the date at column index 2 (its PDF
table layout), that field is not a valid date, the row therefore maps
to `InvalidTransaction`, and lazy header emission leaves the output
empty. -/
theorem c6_csv_row_rejected :
    csvClean iciciCsvHeader c6DocLines =
      [["10/07/2017", "", "SomeDescription", "0.0", "20000.0", "27296.69"]] ∧
    valid_date "SomeDescription" = false ∧
    get_icici ["10/07/2017", "", "SomeDescription", "0.0", "20000.0",
               "27296.69"] = MapResult.invalid := by
  decide

end Bout
